import Mathlib

/-!
Verification of the batch columnar converter/merger from the
`merge_data_with_dask` notebook.

The two routines under study are `convert_to_parquet` (CSV → parquet, with
column-name normalization, NA dropping and birth-year sentinel substitution)
and `merge_monthly_trips` (selection of monthly parquet files by a
lexicographic filename range, row-wise concatenation, and a single written
output with a schema override pinning `birthyear` to a textual type).

Strings are modelled by Lean `String`; the Python string order (comparison
of code points, lexicographic) is re-implemented on character lists so that
every predicate is kernel-computable, and proved to agree with the ambient
linear order on `String`.  Tables are lists of rows; a row is an association
list from column names to cell values.  The filesystem is an explicit
environment of `listdir` / existence / read functions, as the notebook only
touches it through those operations.
-/

/-- Lexicographic strict comparison of character lists, one code point at a
time, as Python compares strings. -/
def pyLtChars : List Char → List Char → Bool
  | [], [] => false
  | [], _ :: _ => true
  | _ :: _, [] => false
  | a :: as, b :: bs => if a < b then true else if b < a then false else pyLtChars as bs

/-- Python's `a < b` on strings. -/
def pyStrLt (a b : String) : Bool := pyLtChars a.data b.data

/-- Python's `a <= b` on strings: the negation of `b < a` in the total
lexicographic order. -/
def pyStrLe (a b : String) : Bool := !(pyStrLt b a)

/-- Python's `s.endswith(t)`. -/
def pyEndsWith (s t : String) : Bool := t.data.isSuffixOf s.data

/-- Insert a string into a list so that, if the list is sorted, the result
stays sorted.  Helper for `sortStrings`. -/
def insertSorted (x : String) : List String → List String
  | [] => [x]
  | y :: ys => if pyStrLe x y then x :: y :: ys else y :: insertSorted x ys

/-- Python's `sorted` on a list of strings (insertion sort; ascending in the
lexicographic order, stable, which agrees with `sorted` on any list and in
particular on lists of distinct filenames). -/
def sortStrings : List String → List String
  | [] => []
  | x :: xs => insertSorted x (sortStrings xs)

/-- Python's `s.split("/")[-1]`, computed directly: the characters after the
last `'/'` (the whole string when no `'/'` occurs).  Every `'/'` resets the
accumulator, so the fold returns exactly the final segment that
`split("/")` would put last. -/
def afterLastSlash (l : List Char) : List Char :=
  l.foldl (fun acc c => if c = '/' then [] else acc ++ [c]) []

/-- String version of `afterLastSlash`: Python's `s.split("/")[-1]`. -/
def pySplitSlashLast (s : String) : String := (afterLastSlash s.data).asString

/-- Python's `s[:-4]`: all characters but the last four (empty when the
string has at most four characters). -/
def pySliceDropLast4 (s : String) : String :=
  (s.data.take (s.data.length - 4)).asString

/-- A cell of a table: missing (`NaN`), integer, or text.  The notebook's
trip data only needs these three shapes (`birthyear` is "integer or a
sentinel for missing" per the data model). -/
inductive Value where
  | null
  | intV (n : Int)
  | strV (s : String)
deriving DecidableEq

/-- Python's `str()` rendering of a cell, as `astype("str")` applies it:
integers print in decimal, text is unchanged, a missing value prints as
`"nan"`. -/
def pyStr : Value → String
  | Value.null => "nan"
  | Value.intV n => toString n
  | Value.strV s => s

/-- Whether a cell is textual. -/
def Value.isStr : Value → Bool
  | Value.strV _ => true
  | _ => false

/-- A row: an association list from column names to cells. -/
abbrev Row := List (String × Value)

/-- A table: a list of rows (the dataframe of one file). -/
abbrev Table := List Row

/-- Column-name normalization `col.lower().replace(" ", "")` from
`convert_to_parquet`: lower-case every character, then delete spaces. -/
def normalizeCol (c : String) : String :=
  ((c.data.map Char.toLower).filter (fun ch => ch ≠ ' ')).asString

/-- Whether a row contains a missing value in any column (`dropna` removes
exactly these rows). -/
def rowHasNull (r : Row) : Bool := r.any (fun p => p.2 == Value.null)

/-- Replacement of the missing-birth-year marker: `re.sub` of the literal
two-character pattern `\N` (regex `r"\\N"`) by `"0"`, left to right,
non-overlapping, as `Series.replace(r"\\N", "0", regex=True)` performs on a
textual cell. -/
def replaceBackslashN : List Char → List Char
  | [] => []
  | '\\' :: 'N' :: rest => '0' :: replaceBackslashN rest
  | c :: rest => c :: replaceBackslashN rest

/-- Cell-level effect of `Series.replace(r"\\N", "0", regex=True)`: regex
replacement applies to textual cells and leaves other cells unchanged. -/
def replVal : Value → Value
  | Value.strV s => Value.strV (replaceBackslashN s.data).asString
  | v => v

/-- Renaming of one row's columns by
`csv_df.columns = [col.lower().replace(" ", "") for col in csv_df.columns]`. -/
def renameRow (r : Row) : Row := r.map (fun p => (normalizeCol p.1, p.2))

/-- `csv_df["birthyear"] = csv_df["birthyear"].replace(r"\\N", "0", regex=True)`
on one row: the replacement touches exactly the `birthyear` column. -/
def replaceBirthyearRow (r : Row) : Row :=
  r.map (fun p => if p.1 = "birthyear" then (p.1, replVal p.2) else p)

/-- The per-file pipeline of `convert_to_parquet`, in source order:
normalize column names, `dropna`, substitute the birth-year sentinel. -/
def convertTable (t : Table) : Table :=
  ((t.map renameRow).filter (fun r => !rowHasNull r)).map replaceBirthyearRow

/-- The filesystem as the converter sees it: a directory listing and a CSV
reader (`os.listdir`, `pd.read_csv`). -/
structure CsvEnv where
  listdir : String → List String
  read_csv : String → Table

/-- `convert_to_parquet(directory_from, directory_to)`: for each file of the
source directory (paths sorted), write one parquet file in the destination
directory; the output name is `split("/")[-1][:-4]` of the source path plus
`".parquet"`, and the written table is the converted dataframe.  The result
lists the written files as (path, table) pairs in processing order. -/
def convert_to_parquet (env : CsvEnv) (directory_from directory_to : String) :
    List (String × Table) :=
  let csv_files := sortStrings ((env.listdir directory_from).map
    (fun f => directory_from ++ f))
  csv_files.map (fun csv_file =>
    let filename := pySliceDropLast4 (pySplitSlashLast csv_file)
    (directory_to ++ filename ++ ".parquet", convertTable (env.read_csv csv_file)))

/-- The notebook's module constant. -/
def PARQUET_EXTENSION : String := ".parquet"

/-- Python truthiness of the optional `year` argument (`if year:`):
`None` and `0` are falsy. -/
def pyTruthy : Option Nat → Bool
  | none => false
  | some y => y != 0

/-- The local `range_start = str(year) + "-01"`. -/
def range_start (year : Nat) : String := toString year ++ "-01"

/-- The local `range_end = str(year) + "-13"`. -/
def range_end (year : Nat) : String := toString year ++ "-13"

/-- The `month_files` selection of `merge_monthly_trips`: with a truthy
year, the sorted paths of listed names inside the lexicographic range
`range_start <= f <= range_end`; otherwise the sorted paths of listed names
ending in `PARQUET_EXTENSION`. -/
def month_files (year : Option Nat) (directory : String) (listing : List String) :
    List String :=
  if pyTruthy year then
    sortStrings ((listing.filter (fun f =>
      pyStrLe (range_start (year.getD 0)) f &&
      pyStrLe f (range_end (year.getD 0)))).map (fun f => directory ++ f))
  else
    sortStrings ((listing.filter (fun f =>
      pyEndsWith f PARQUET_EXTENSION)).map (fun f => directory ++ f))

/-- The per-name selection predicate of `month_files`, factored out for the
statements (year branch: the closed lexicographic range; no-year branch: the
extension test). -/
def selNamePred (year : Option Nat) (f : String) : Bool :=
  if pyTruthy year then
    pyStrLe (range_start (year.getD 0)) f && pyStrLe f (range_end (year.getD 0))
  else
    pyEndsWith f PARQUET_EXTENSION

/-- `ddf["birthyear"] = ddf["birthyear"].astype("str")` applied to a read
table: every `birthyear` cell is rendered as text; other columns are
untouched. -/
def astypeBirthyearStr (t : Table) : Table :=
  t.map (fun r => r.map (fun p =>
    if p.1 = "birthyear" then (p.1, Value.strV (pyStr p.2)) else p))

/-- `dask.dataframe.concat`: concatenating an empty list of dataframes
raises `ValueError("No objects to concatenate")`; otherwise the rows are
concatenated in argument order. -/
def ddConcat (ts : List Table) : Except String Table :=
  if ts.isEmpty then Except.error "No objects to concatenate" else Except.ok ts.flatten

/-- The pyarrow type appearing in the merge's schema override
(`pa.string()`). -/
inductive PaType where
  | paString
deriving DecidableEq

/-- The single parquet file written by `to_parquet`: its path, its rows, and
the explicit schema override passed alongside (`schema={"birthyear":
pa.string()}`). -/
structure WrittenParquet where
  path : String
  rows : List Row
  schemaOverride : List (String × PaType)
deriving DecidableEq

/-- The filesystem as the merger sees it: directory listing, existence test
and parquet reader (`os.listdir`, `os.path.exists`, `dd.read_parquet`). -/
structure Env where
  listdir : String → List String
  path_exists : String → Bool
  read_parquet : String → Table

/-- `merge_monthly_trips(year, directory)`: select `month_files`, keep those
that exist, read each and force `birthyear` to text, concatenate, and write
`directory + filename + PARQUET_EXTENSION` (`str(year)` or `"alltrips"`)
with the birth-year schema override.  The concatenation error on an empty
selection propagates. -/
def merge_monthly_trips (env : Env) (year : Option Nat) (directory : String) :
    Except String WrittenParquet :=
  let files := month_files year directory (env.listdir directory)
  let parquet_ddfs := (files.filter env.path_exists).map
    (fun p => astypeBirthyearStr (env.read_parquet p))
  match ddConcat parquet_ddfs with
  | Except.error e => Except.error e
  | Except.ok all_trips =>
    let filename := if pyTruthy year then toString (year.getD 0) else "alltrips"
    Except.ok ⟨directory ++ filename ++ PARQUET_EXTENSION, all_trips,
      [("birthyear", PaType.paString)]⟩

/-- Effect of a completed write on a later `os.listdir` of the same
directory: the written name appears in the listing (once). -/
def afterWrite (listing : List String) (name : String) : List String :=
  if name ∈ listing then listing else listing ++ [name]

/-- Concrete merger environment whose directory holds a single monthly
parquet file of 2019; used to instantiate hypotheses of the merge
theorems. -/
def envOneMonth : Env :=
  ⟨fun _ => ["2019-01.parquet"], fun _ => true,
   fun _ => [[("birthyear", Value.intV 1990), ("gender", Value.intV 1)]]⟩

/-- Concrete merger environment whose directory holds only a 2018 file, so a
2019 selection is empty. -/
def envNoMatch : Env :=
  ⟨fun _ => ["2018-12.parquet"], fun _ => true, fun _ => [[]]⟩

/-- Number of occurrences of a string in a list of strings. -/
def countOcc (x : String) : List String → Nat
  | [] => 0
  | y :: ys => (if y = x then 1 else 0) + countOcc x ys

/-- The file written by `merge_monthly_trips envOneMonth (some 2019) "data/"`. -/
def wYear : WrittenParquet :=
  ⟨"data/2019.parquet",
   [[("birthyear", Value.strV "1990"), ("gender", Value.intV 1)]],
   [("birthyear", PaType.paString)]⟩

/-- The file written by `merge_monthly_trips envOneMonth none "data/"`. -/
def wAll : WrittenParquet :=
  ⟨"data/alltrips.parquet",
   [[("birthyear", Value.strV "1990"), ("gender", Value.intV 1)]],
   [("birthyear", PaType.paString)]⟩

/-- Concrete converter environment with two CSV files. -/
def csvEnvTwo : CsvEnv :=
  ⟨fun _ => ["2019-01.csv", "2019-02.csv"],
   fun _ => [[("Birth Year", Value.strV "\\N"), ("gender", Value.intV 1)]]⟩

/-- Concrete one-row table whose `Birth Year` column holds the missing-value
marker. -/
def tMarker : Table := [[("Birth Year", Value.strV "\\N"), ("gender", Value.intV 1)]]

/-- The row of `tMarker`. -/
def rMarker : Row := [("Birth Year", Value.strV "\\N"), ("gender", Value.intV 1)]

/-! ### Order and string helper lemmas -/

theorem pyLtChars_iff : ∀ (x y : List Char), pyLtChars x y = true ↔ x < y
  | [], [] => by
    simp only [pyLtChars, Bool.false_eq_true, false_iff]
    intro h; cases h
  | [], _ :: _ => by
    simp only [pyLtChars, true_iff]
    exact List.Lex.nil
  | _ :: _, [] => by
    simp only [pyLtChars, Bool.false_eq_true, false_iff]
    intro h; cases h
  | a :: as, b :: bs => by
    simp only [pyLtChars]
    by_cases hab : a < b
    · simp only [hab, if_true, true_iff]
      exact List.Lex.rel hab
    · by_cases hba : b < a
      · simp only [hab, hba, if_false, if_true, Bool.false_eq_true, false_iff]
        intro h
        cases h with
        | cons _ => exact lt_irrefl a hba
        | rel h1 => exact hab h1
      · have hev : a = b := le_antisymm (not_lt.1 hba) (not_lt.1 hab)
        subst hev
        simp only [hab, hba, if_false]
        rw [pyLtChars_iff as bs]
        exact (List.Lex.cons_iff).symm

theorem data_append (s t : String) : (s ++ t).data = s.data ++ t.data := by
  cases s; cases t; rfl

theorem data_injective {s t : String} (h : s.data = t.data) : s = t := by
  cases s; cases t; exact congrArg String.mk h

theorem str_append_left_cancel {d a b : String} (h : d ++ a = d ++ b) : a = b := by
  apply data_injective
  have h2 := congrArg String.data h
  rw [data_append, data_append] at h2
  exact List.append_cancel_left h2

theorem str_append_right_cancel {d a b : String} (h : a ++ d = b ++ d) : a = b := by
  apply data_injective
  have h2 := congrArg String.data h
  rw [data_append, data_append] at h2
  exact List.append_cancel_right h2

theorem str_append_assoc (a b c : String) : a ++ b ++ c = a ++ (b ++ c) := by
  apply data_injective
  rw [data_append, data_append, data_append, data_append, List.append_assoc]

theorem pyStrLt_iff (a b : String) : pyStrLt a b = true ↔ a < b := by
  rw [String.lt_iff_toList_lt]
  exact pyLtChars_iff a.data b.data

theorem pyStrLe_iff (a b : String) : pyStrLe a b = true ↔ a ≤ b := by
  unfold pyStrLe
  rw [Bool.not_eq_true', ← not_lt (α := String)]
  constructor
  · intro h hc
    exact absurd ((pyStrLt_iff b a).2 hc) (by simp [h])
  · intro h
    cases hx : pyStrLt b a with
    | false => rfl
    | true => exact absurd ((pyStrLt_iff b a).1 hx) h

theorem pyLtChars_append (d x y : List Char) :
    pyLtChars (d ++ x) (d ++ y) = pyLtChars x y := by
  induction d with
  | nil => rfl
  | cons c cs ih => simpa only [List.cons_append, pyLtChars, lt_irrefl, if_false] using ih

theorem pyStrLe_append (d a b : String) :
    pyStrLe (d ++ a) (d ++ b) = pyStrLe a b := by
  unfold pyStrLe pyStrLt
  rw [data_append, data_append, pyLtChars_append]

/-! ### Sorting helper lemmas -/

theorem insertSorted_perm (x : String) (l : List String) :
    (insertSorted x l).Perm (x :: l) := by
  induction l with
  | nil => exact List.Perm.refl _
  | cons y ys ih =>
    unfold insertSorted
    by_cases h : pyStrLe x y = true
    · rw [if_pos h]
    · rw [if_neg h]
      exact (List.Perm.cons y ih).trans (List.Perm.swap x y ys)

theorem sortStrings_perm (l : List String) : (sortStrings l).Perm l := by
  induction l with
  | nil => exact List.Perm.refl _
  | cons x xs ih =>
    exact (insertSorted_perm x (sortStrings xs)).trans (List.Perm.cons x ih)

theorem mem_sortStrings {a : String} {l : List String} :
    a ∈ sortStrings l ↔ a ∈ l :=
  (sortStrings_perm l).mem_iff

theorem mem_insertSorted {a x : String} {l : List String} :
    a ∈ insertSorted x l ↔ a = x ∨ a ∈ l := by
  rw [(insertSorted_perm x l).mem_iff, List.mem_cons]

theorem insertSorted_sorted {x : String} {l : List String}
    (h : l.Sorted (· ≤ ·)) : (insertSorted x l).Sorted (· ≤ ·) := by
  induction l with
  | nil => simp [insertSorted]
  | cons y ys ih =>
    rw [List.sorted_cons] at h
    unfold insertSorted
    by_cases hxy : pyStrLe x y = true
    · rw [if_pos hxy, List.sorted_cons]
      refine ⟨?_, List.sorted_cons.2 h⟩
      intro b hb
      rcases List.mem_cons.1 hb with hb | hb
      · exact hb ▸ (pyStrLe_iff x y).1 hxy
      · exact le_trans ((pyStrLe_iff x y).1 hxy) (h.1 b hb)
    · rw [if_neg hxy, List.sorted_cons]
      refine ⟨?_, ih h.2⟩
      intro b hb
      rcases mem_insertSorted.1 hb with hb | hb
      · rw [hb]
        exact le_of_lt (not_le.1 (fun hc => hxy ((pyStrLe_iff x y).2 hc)))
      · exact h.1 b hb

theorem sortStrings_sorted (l : List String) :
    (sortStrings l).Sorted (· ≤ ·) := by
  induction l with
  | nil => simp [sortStrings]
  | cons x xs ih => exact insertSorted_sorted ih

theorem insertSorted_map_append (d x : String) (l : List String) :
    insertSorted (d ++ x) (l.map (fun f => d ++ f)) =
      (insertSorted x l).map (fun f => d ++ f) := by
  induction l with
  | nil => rfl
  | cons y ys ih =>
    simp only [List.map_cons, insertSorted, pyStrLe_append]
    by_cases h : pyStrLe x y = true
    · rw [if_pos h, if_pos h]
      rfl
    · rw [if_neg h, if_neg h, List.map_cons, ih]

theorem sortStrings_map_append (d : String) (l : List String) :
    sortStrings (l.map (fun f => d ++ f)) =
      (sortStrings l).map (fun f => d ++ f) := by
  induction l with
  | nil => rfl
  | cons x xs ih =>
    simp only [List.map_cons, sortStrings, ih, insertSorted_map_append]

/-! ### Selection and merge helper lemmas -/

theorem month_files_eq (year : Option Nat) (d : String) (listing : List String) :
    month_files year d listing =
      sortStrings ((listing.filter (selNamePred year)).map (fun f => d ++ f)) := by
  unfold month_files selNamePred
  by_cases h : pyTruthy year = true
  · simp only [h, if_true]
  · simp only [h, if_false, Bool.false_eq_true]

theorem mem_month_files (year : Option Nat) (d : String) (listing : List String)
    (f : String) :
    (d ++ f) ∈ month_files year d listing ↔
      f ∈ listing ∧ selNamePred year f = true := by
  rw [month_files_eq, mem_sortStrings, List.mem_map]
  constructor
  · rintro ⟨g, hg, hgf⟩
    rcases List.mem_filter.1 hg with ⟨hgl, hgp⟩
    rcases str_append_left_cancel hgf with rfl
    exact ⟨hgl, hgp⟩
  · rintro ⟨hfl, hfp⟩
    exact ⟨f, List.mem_filter.2 ⟨hfl, hfp⟩, rfl⟩

theorem ddConcat_ok {ts : List Table} {t : Table}
    (h : ddConcat ts = Except.ok t) : t = ts.flatten := by
  unfold ddConcat at h
  by_cases he : ts.isEmpty
  · rw [if_pos he] at h
    cases h
  · rw [if_neg he] at h
    cases h
    rfl

theorem merge_ok_spec {env : Env} {year : Option Nat} {d : String}
    {w : WrittenParquet} (h : merge_monthly_trips env year d = Except.ok w) :
    w.path = d ++ (if pyTruthy year then toString (year.getD 0) else "alltrips")
        ++ PARQUET_EXTENSION ∧
    w.rows = (((month_files year d (env.listdir d)).filter env.path_exists).map
        (fun p => astypeBirthyearStr (env.read_parquet p))).flatten ∧
    w.schemaOverride = [("birthyear", PaType.paString)] := by
  unfold merge_monthly_trips at h
  dsimp only at h
  generalize hdd : ddConcat (List.map (fun p => astypeBirthyearStr (env.read_parquet p))
      (List.filter env.path_exists (month_files year d (env.listdir d)))) = res at h
  cases res with
  | error e => cases h
  | ok all_trips =>
    dsimp only at h
    cases h
    exact ⟨rfl, ddConcat_ok hdd, rfl⟩

/-! ### Path-splitting helper lemmas -/

theorem foldl_no_slash : ∀ (f : List Char), '/' ∉ f → ∀ (acc : List Char),
    List.foldl (fun a c => if c = '/' then [] else a ++ [c]) acc f = acc ++ f
  | [], _, acc => by simp
  | c :: cs, hf, acc => by
    rw [List.mem_cons, not_or] at hf
    show List.foldl _ (if c = '/' then [] else acc ++ [c]) cs = acc ++ c :: cs
    rw [if_neg (fun hc => hf.1 hc.symm), foldl_no_slash cs hf.2 (acc ++ [c])]
    simp

theorem afterLastSlash_append_slash (d f : List Char) (hf : '/' ∉ f) :
    afterLastSlash (d ++ '/' :: f) = f := by
  unfold afterLastSlash
  rw [List.foldl_append, List.foldl_cons]
  show List.foldl _ (if ('/' : Char) = '/' then [] else _ ++ ['/']) f = f
  rw [if_pos rfl, foldl_no_slash f hf []]
  rfl

theorem pySplitSlashLast_append (d0 f : String) (hf : '/' ∉ f.data) :
    pySplitSlashLast ((d0 ++ "/") ++ f) = f := by
  unfold pySplitSlashLast
  have hd : ((d0 ++ "/") ++ f).data = d0.data ++ '/' :: f.data := by
    rw [data_append, data_append]
    simp only [List.append_assoc]
    rfl
  rw [hd, afterLastSlash_append_slash d0.data f.data hf]
  exact String.asString_toList f

theorem pySliceDropLast4_csv (b : String) :
    pySliceDropLast4 (b ++ ".csv") = b := by
  unfold pySliceDropLast4
  rw [data_append]
  have h4 : (".csv" : String).data.length = 4 := rfl
  rw [List.length_append, h4, Nat.add_sub_cancel, List.take_left]
  exact String.asString_toList b

/-! ### Counting helper lemmas -/

theorem countOcc_perm {l₁ l₂ : List String} (h : l₁.Perm l₂) (x : String) :
    countOcc x l₁ = countOcc x l₂ := by
  induction h with
  | nil => rfl
  | cons y _ ih => simp only [countOcc, ih]
  | swap y z l =>
    show (if z = x then 1 else 0) + ((if y = x then 1 else 0) + countOcc x l) =
      (if y = x then 1 else 0) + ((if z = x then 1 else 0) + countOcc x l)
    rw [← Nat.add_assoc, ← Nat.add_assoc,
      Nat.add_comm (if z = x then 1 else 0) (if y = x then 1 else 0)]
  | trans _ _ ih₁ ih₂ => exact ih₁.trans ih₂

theorem countOcc_eq_zero {x : String} :
    ∀ {l : List String}, (∀ y ∈ l, y ≠ x) → countOcc x l = 0
  | [], _ => rfl
  | y :: ys, h => by
    show (if y = x then 1 else 0) + countOcc x ys = 0
    rw [if_neg (h y (List.mem_cons_self y ys)),
      countOcc_eq_zero (fun z hz => h z (List.mem_cons.2 (Or.inr hz)))]

theorem countOcc_map_mem_one {α : Type} :
    ∀ (l : List α) (g : α → String) (a : α), a ∈ l → l.Nodup →
      (∀ x ∈ l, g x = g a → x = a) → countOcc (g a) (l.map g) = 1
  | [], _, a, ha, _, _ => absurd ha (List.not_mem_nil a)
  | b :: l', g, a, ha, hnd, hinj => by
    rw [List.nodup_cons] at hnd
    rw [List.map_cons]
    show (if g b = g a then 1 else 0) + countOcc (g a) (l'.map g) = 1
    rcases List.mem_cons.1 ha with hab | ha'
    · have hgb : g b = g a := by rw [hab]
      rw [if_pos hgb]
      have hz : countOcc (g a) (l'.map g) = 0 := by
        apply countOcc_eq_zero
        intro y hy hyx
        rcases List.mem_map.1 hy with ⟨z, hz', hzy⟩
        have hza : z = a := hinj z (List.mem_cons.2 (Or.inr hz')) (by rw [hzy, hyx])
        have hbl : b ∈ l' := by
          rw [← hab, ← hza]
          exact hz'
        exact hnd.1 hbl
      rw [hz]
    · have hba : b ≠ a := fun hc => hnd.1 (hc ▸ ha')
      have hgba : g b ≠ g a := fun hc => hba (hinj b (List.mem_cons_self b l') hc)
      rw [if_neg hgba, countOcc_map_mem_one l' g a ha' hnd.2
        (fun x hx => hinj x (List.mem_cons.2 (Or.inr hx)))]

/-! ### Claim theorems -/

/-- Claim C1, counterexample: the year filter `range_start <= f <= range_end`
is a closed interval, not the half-open one the claim states.  A directory
entry named exactly `str(year) + "-13"` is lexicographically `>=` the upper
bound `str(year) + "-13"` and yet it is selected by the merger. -/
theorem c1_counterexample_upper_bound_selected :
    pyStrLe (range_end 2019) "2019-13" = true ∧
    ("data/" ++ "2019-13") ∈ month_files (some 2019) "data/" ["2019-13"] := by
  constructor
  · decide
  · decide

/-- Claim C1 (amended): for every non-zero year, the merger selects exactly
those directory entries whose name lies in the CLOSED lexicographic range
from `str(year) + "-01"` to `str(year) + "-13"`; a name strictly greater
than the upper bound is never selected, but a name equal to the upper bound
is. -/
theorem c1_year_selection_is_closed_range (y : Nat) (d : String)
    (listing : List String) (f : String) (hy : 0 < y) :
    (d ++ f) ∈ month_files (some y) d listing ↔
      f ∈ listing ∧ pyStrLe (range_start y) f = true ∧
      pyStrLe f (range_end y) = true := by
  rw [mem_month_files]
  have ht : pyTruthy (some y) = true := by
    have hne : y ≠ 0 := Nat.pos_iff_ne_zero.1 hy
    simp [pyTruthy, hne]
  simp only [selNamePred, ht, if_true, Option.getD_some, Bool.and_eq_true]

/-- Witness for `c1_year_selection_is_closed_range` at year 2019 and a
single-entry directory. -/
theorem c1_year_selection_is_closed_range_witness :
    ("data/" ++ "2019-13") ∈ month_files (some 2019) "data/" ["2019-13"] ↔
      "2019-13" ∈ ["2019-13"] ∧ pyStrLe (range_start 2019) "2019-13" = true ∧
      pyStrLe "2019-13" (range_end 2019) = true :=
  c1_year_selection_is_closed_range 2019 "data/" ["2019-13"] "2019-13" (by decide)

/-- Claim C2: on a directory listing holding exactly the twelve monthly
files of 2019 together with `2018-12.parquet` and `2020-01.parquet`, the
merge for year 2019 selects exactly the twelve 2019 files (as paths, in
sorted order) and neither neighbouring year. -/
theorem c2_year_2019_selects_exactly_twelve :
    month_files (some 2019) "data/"
      ["2019-05.parquet", "2019-01.parquet", "2019-02.parquet",
       "2019-03.parquet", "2019-04.parquet", "2018-12.parquet",
       "2019-06.parquet", "2019-07.parquet", "2019-08.parquet",
       "2019-09.parquet", "2019-10.parquet", "2019-11.parquet",
       "2019-12.parquet", "2020-01.parquet"] =
      ["data/2019-01.parquet", "data/2019-02.parquet", "data/2019-03.parquet",
       "data/2019-04.parquet", "data/2019-05.parquet", "data/2019-06.parquet",
       "data/2019-07.parquet", "data/2019-08.parquet", "data/2019-09.parquet",
       "data/2019-10.parquet", "data/2019-11.parquet", "data/2019-12.parquet"] := by
  decide

/-- Claim C3, counterexample: with a directory holding only
`2018-12.parquet`, merging year 2019 selects nothing, and the merge does
NOT produce an empty result: the concatenation of zero dataframes raises
`ValueError("No objects to concatenate")`, which propagates unhandled. -/
theorem c3_counterexample_empty_selection_raises :
    merge_monthly_trips envNoMatch (some 2019) "data/" =
      Except.error "No objects to concatenate" := by
  rfl

/-- Claim C3 (amended): whenever the selection (after the existence filter)
is empty, the merger terminates with the unhandled concatenation error
rather than an empty output file. -/
theorem c3_empty_selection_propagates_error (env : Env) (year : Option Nat)
    (d : String)
    (h : (month_files year d (env.listdir d)).filter env.path_exists = []) :
    merge_monthly_trips env year d =
      Except.error "No objects to concatenate" := by
  unfold merge_monthly_trips
  dsimp only
  rw [h]
  rfl

/-- Witness for `c3_empty_selection_propagates_error` on the concrete
no-match environment. -/
theorem c3_empty_selection_propagates_error_witness :
    merge_monthly_trips envNoMatch (some 2019) "data/" =
      Except.error "No objects to concatenate" :=
  c3_empty_selection_propagates_error envNoMatch (some 2019) "data/" (by rfl)

/-- Claim C4: a row that survives `dropna` and whose (normalized)
birth-year column holds the missing-value marker `\N` appears in the
converted table with birth-year equal to the textual sentinel `"0"` — a
`strV` cell, i.e. text, not a numeric cell. -/
theorem c4_missing_birthyear_becomes_text_zero (t : Table) (r : Row)
    (hr : r ∈ t) (hclean : rowHasNull (renameRow r) = false)
    (hby : ∀ p ∈ renameRow r, p.1 = "birthyear" → p.2 = Value.strV "\\N") :
    replaceBirthyearRow (renameRow r) ∈ convertTable t ∧
    ∀ p ∈ replaceBirthyearRow (renameRow r), p.1 = "birthyear" →
      p.2 = Value.strV "0" := by
  constructor
  · unfold convertTable
    refine List.mem_map_of_mem replaceBirthyearRow (List.mem_filter.2 ?_)
    refine ⟨List.mem_map_of_mem renameRow hr, ?_⟩
    rw [hclean]
    rfl
  · intro p hp hpname
    rcases List.mem_map.1 hp with ⟨q, hq, hqeq⟩
    by_cases hname : q.1 = "birthyear"
    · rw [if_pos hname] at hqeq
      have hqv : q.2 = Value.strV "\\N" := hby q hq hname
      rw [← hqeq, hqv]
      rfl
    · rw [if_neg hname] at hqeq
      exact absurd hpname (by rw [← hqeq]; exact hname)

/-- Witness for `c4_missing_birthyear_becomes_text_zero` on a concrete
one-row table with a `Birth Year` column holding `\N`. -/
theorem c4_missing_birthyear_becomes_text_zero_witness :
    replaceBirthyearRow (renameRow rMarker) ∈ convertTable tMarker ∧
    ∀ p ∈ replaceBirthyearRow (renameRow rMarker), p.1 = "birthyear" →
      p.2 = Value.strV "0" :=
  c4_missing_birthyear_becomes_text_zero tMarker rMarker (by decide) (by decide)
    (by decide)

/-- Claim C5: every successful merge writes a file in which every
birth-year cell is textual (whatever mix of numeric and textual birth-year
cells the selected monthly files stored), and whose schema override pins
the birth-year column to the pyarrow string type. -/
theorem c5_merge_birthyear_uniformly_textual (env : Env) (year : Option Nat)
    (d : String) (w : WrittenParquet)
    (h : merge_monthly_trips env year d = Except.ok w) :
    (∀ r ∈ w.rows, ∀ p ∈ r, p.1 = "birthyear" → Value.isStr p.2 = true) ∧
    w.schemaOverride = [("birthyear", PaType.paString)] := by
  obtain ⟨_, hrows, hschema⟩ := merge_ok_spec h
  refine ⟨?_, hschema⟩
  intro r hr p hp hpname
  rw [hrows] at hr
  rcases List.mem_flatten.1 hr with ⟨t, ht, hrt⟩
  rcases List.mem_map.1 ht with ⟨pth, hpth, hteq⟩
  rw [← hteq] at hrt
  rcases List.mem_map.1 hrt with ⟨r0, hr0, hreq⟩
  rw [← hreq] at hp
  rcases List.mem_map.1 hp with ⟨q, hq, hqeq⟩
  by_cases hname : q.1 = "birthyear"
  · rw [if_pos hname] at hqeq
    rw [← hqeq]
    rfl
  · rw [if_neg hname] at hqeq
    exact absurd hpname (by rw [← hqeq]; exact hname)

/-- Witness for `c5_merge_birthyear_uniformly_textual` on a directory with
one monthly file whose birth-year cells are numeric. -/
theorem c5_merge_birthyear_uniformly_textual_witness :
    (∀ r ∈ wYear.rows, ∀ p ∈ r, p.1 = "birthyear" → Value.isStr p.2 = true) ∧
    wYear.schemaOverride = [("birthyear", PaType.paString)] :=
  c5_merge_birthyear_uniformly_textual envOneMonth (some 2019) "data/" wYear
    (by rfl)

/-- Claim C6: a successful merge's rows are the row-wise concatenation of
the selected (existing) files' tables, the files taken in ascending
lexicographic order of filename (the selected names sorted; prefixing the
common directory preserves that order) and each file's rows kept in their
original order; moreover that filename order is indeed ascending in the
lexicographic order on strings. -/
theorem c6_merge_rows_in_filename_order (env : Env) (year : Option Nat)
    (d : String) (w : WrittenParquet)
    (h : merge_monthly_trips env year d = Except.ok w) :
    w.rows = ((((sortStrings ((env.listdir d).filter (selNamePred year))).map
        (fun f => d ++ f)).filter env.path_exists).map
        (fun p => astypeBirthyearStr (env.read_parquet p))).flatten ∧
    List.Sorted (· ≤ ·) (sortStrings ((env.listdir d).filter (selNamePred year))) := by
  obtain ⟨_, hrows, _⟩ := merge_ok_spec h
  constructor
  · rw [hrows, month_files_eq, sortStrings_map_append]
  · exact sortStrings_sorted _

/-- Witness for `c6_merge_rows_in_filename_order` on the one-month
environment. -/
theorem c6_merge_rows_in_filename_order_witness :
    wYear.rows = ((((sortStrings ((envOneMonth.listdir "data/").filter
        (selNamePred (some 2019)))).map
        (fun f => "data/" ++ f)).filter envOneMonth.path_exists).map
        (fun p => astypeBirthyearStr (envOneMonth.read_parquet p))).flatten ∧
    List.Sorted (· ≤ ·) (sortStrings ((envOneMonth.listdir "data/").filter
        (selNamePred (some 2019)))) :=
  c6_merge_rows_in_filename_order envOneMonth (some 2019) "data/" wYear (by rfl)

/-- Claim C7: with no year supplied, the merger selects exactly the
directory entries ending in the parquet extension — membership depends
only on the extension test, never on any year token in the name. -/
theorem c7_no_year_selects_all_parquet (d : String) (listing : List String)
    (f : String) :
    (d ++ f) ∈ month_files none d listing ↔
      f ∈ listing ∧ pyEndsWith f PARQUET_EXTENSION = true := by
  rw [mem_month_files]
  unfold selNamePred
  rw [show pyTruthy none = false from rfl]
  simp only [Bool.false_eq_true, if_false]

/-- Claim C8: for every file of the source directory (directory path ending
in `/`, entries being slash-free names ending in `.csv`, as `os.listdir`
yields for the notebook's CSV directories), the converter writes exactly
one parquet file in the destination directory, and its base name (the name
without extension) equals the base name of that input file. -/
theorem c8_converter_one_output_per_input (env : CsvEnv)
    (d0 directory_to : String) (f b : String)
    (hnodup : (env.listdir (d0 ++ "/")).Nodup)
    (hall : ∀ g ∈ env.listdir (d0 ++ "/"), '/' ∉ g.data ∧ ∃ c, g = c ++ ".csv")
    (hf : f ∈ env.listdir (d0 ++ "/")) (hb : f = b ++ ".csv") :
    countOcc (directory_to ++ b ++ ".parquet")
      ((convert_to_parquet env (d0 ++ "/") directory_to).map Prod.fst) = 1 := by
  unfold convert_to_parquet
  dsimp only
  rw [List.map_map]
  show countOcc (directory_to ++ b ++ ".parquet")
      ((sortStrings ((env.listdir (d0 ++ "/")).map (fun g => (d0 ++ "/") ++ g))).map
        (fun p => directory_to ++ pySliceDropLast4 (pySplitSlashLast p) ++ ".parquet")) = 1
  rw [countOcc_perm ((sortStrings_perm
      ((env.listdir (d0 ++ "/")).map (fun g => (d0 ++ "/") ++ g))).map
      (fun p => directory_to ++ pySliceDropLast4 (pySplitSlashLast p) ++ ".parquet"))]
  rw [List.map_map]
  have hpoint : ∀ x ∈ env.listdir (d0 ++ "/"),
      ((fun p => directory_to ++ pySliceDropLast4 (pySplitSlashLast p) ++ ".parquet") ∘
        (fun g => (d0 ++ "/") ++ g)) x =
      (fun x => directory_to ++ pySliceDropLast4 x ++ ".parquet") x := by
    intro x hx
    show directory_to ++ pySliceDropLast4 (pySplitSlashLast ((d0 ++ "/") ++ x)) ++
      ".parquet" = directory_to ++ pySliceDropLast4 x ++ ".parquet"
    rw [pySplitSlashLast_append d0 x (hall x hx).1]
  rw [List.map_congr_left hpoint]
  have htarget : directory_to ++ b ++ ".parquet" =
      directory_to ++ pySliceDropLast4 f ++ ".parquet" := by
    rw [hb, pySliceDropLast4_csv]
  rw [htarget]
  have hinj : ∀ x ∈ env.listdir (d0 ++ "/"),
      (fun x => directory_to ++ pySliceDropLast4 x ++ ".parquet") x =
      (fun x => directory_to ++ pySliceDropLast4 x ++ ".parquet") f → x = f := by
    intro x hx heq
    rcases (hall x hx).2 with ⟨cx, hcx⟩
    rcases (hall f hf).2 with ⟨cf, hcf⟩
    rw [hcx, hcf] at heq
    dsimp only at heq
    rw [pySliceDropLast4_csv, pySliceDropLast4_csv] at heq
    rw [str_append_assoc, str_append_assoc] at heq
    have h1 := str_append_left_cancel heq
    have h2 := str_append_right_cancel h1
    rw [hcx, hcf, h2]
  exact countOcc_map_mem_one (env.listdir (d0 ++ "/"))
    (fun x => directory_to ++ pySliceDropLast4 x ++ ".parquet") f hf hnodup hinj

/-- Witness for `c8_converter_one_output_per_input` on a two-file source
directory. -/
theorem c8_converter_one_output_per_input_witness :
    countOcc ("out/" ++ "2019-01" ++ ".parquet")
      ((convert_to_parquet csvEnvTwo ("data" ++ "/") "out/").map Prod.fst) = 1 :=
  c8_converter_one_output_per_input csvEnvTwo "data" "out/" "2019-01.csv" "2019-01"
    (by decide)
    (by
      intro g hg
      rcases List.mem_cons.1 hg with h1 | h1
      · subst h1
        exact ⟨by decide, "2019-01", rfl⟩
      · rcases List.mem_cons.1 h1 with h2 | h2
        · subst h2
          exact ⟨by decide, "2019-02", rfl⟩
        · cases h2)
    (by decide) rfl

/-- Claim C9: the year branch of the merger tests only the lexicographic
range and not the file extension: a `.csv` file whose name falls inside the
2019 range is selected by `merge_monthly_trips` with year 2019, while the
no-year branch's extension filter rejects that same file. -/
theorem c9_year_branch_ignores_extension :
    month_files (some 2019) "data/" ["2019-05.csv", "notes.txt"] =
      ["data/2019-05.csv"] ∧
    month_files none "data/" ["2019-05.csv", "notes.txt"] = [] := by
  decide

/-- Claim C10: the no-year merge writes into the very directory it scans,
at name `"alltrips" + ".parquet"`, and that name satisfies the no-year
selection predicate; consequently, once the written name shows up in the
directory listing, a second no-year merge selects the first merge's output
as one of its inputs. -/
theorem c10_no_year_output_feeds_next_merge (env : Env) (d : String)
    (w : WrittenParquet) (h : merge_monthly_trips env none d = Except.ok w) :
    w.path = d ++ "alltrips" ++ PARQUET_EXTENSION ∧
    w.path ∈ month_files none d
      (afterWrite (env.listdir d) ("alltrips" ++ PARQUET_EXTENSION)) := by
  obtain ⟨hpath, _, _⟩ := merge_ok_spec h
  have hp : w.path = d ++ "alltrips" ++ PARQUET_EXTENSION := hpath
  refine ⟨hp, ?_⟩
  have hmem : ("alltrips" ++ PARQUET_EXTENSION) ∈
      afterWrite (env.listdir d) ("alltrips" ++ PARQUET_EXTENSION) := by
    unfold afterWrite
    by_cases hin : ("alltrips" ++ PARQUET_EXTENSION) ∈ env.listdir d
    · rw [if_pos hin]
      exact hin
    · rw [if_neg hin]
      exact List.mem_append.2 (Or.inr (List.mem_singleton.2 rfl))
  have hpred : selNamePred none ("alltrips" ++ PARQUET_EXTENSION) = true := by decide
  have hsel := (mem_month_files none d
    (afterWrite (env.listdir d) ("alltrips" ++ PARQUET_EXTENSION))
    ("alltrips" ++ PARQUET_EXTENSION)).2 ⟨hmem, hpred⟩
  rw [hp, str_append_assoc]
  exact hsel

/-- Witness for `c10_no_year_output_feeds_next_merge` on the one-month
environment. -/
theorem c10_no_year_output_feeds_next_merge_witness :
    wAll.path = "data/" ++ "alltrips" ++ PARQUET_EXTENSION ∧
    wAll.path ∈ month_files none "data/"
      (afterWrite (envOneMonth.listdir "data/") ("alltrips" ++ PARQUET_EXTENSION)) :=
  c10_no_year_output_feeds_next_merge envOneMonth "data/" wAll (by rfl)
